import Mathlib

/-!
Verification development for the monthly planetary-event engine
(`backend/app/swiss.py`, `backend/app/database.py`, `backend/app/main.py`).

Shallow embedding conventions:
* instants are UTC epoch seconds as rationals (`ℚ`); `timedelta(minutes=m)`
  becomes `60*m` seconds;
* a Python float that may be NaN (an ephemeris longitude or speed) is an
  `Option ℚ`, with `none` standing for NaN / a raised `swe.Error`;
  `math.isfinite(x)` becomes `x = some _`;
* the external `swisseph` library is a parameter (`Ephem`): an arbitrary
  function from Julian day and planet id to the raw `calc_ut` outputs;
* the unbounded `while` loops of the scanners take an explicit fuel
  parameter; running out of fuel stops the loop early and returns the
  events accumulated so far, so every universally quantified theorem about
  a scan holds at the fuel at which the real loop terminates, and a
  concrete event emitted at some fuel is emitted by the real loop.
-/

/-! ## Time and angle kernel (`swiss.py`) -/

/-- Truncation toward zero, as used by Python `math.fmod`. -/
def qtrunc (x : ℚ) : ℤ := if 0 ≤ x then ⌊x⌋ else ⌈x⌉

/-- Python `math.fmod(x, y)`: remainder with the sign of `x`. -/
def fmod (x y : ℚ) : ℚ := x - y * (qtrunc (x / y) : ℚ)

/-- `_mod360`: `r = math.fmod(value, 360.0); return r + 360.0 if r < 0.0 else r`. -/
def mod360 (value : ℚ) : ℚ :=
  let r := fmod value 360
  if r < 0 then r + 360 else r

/-- `_angdiff`: `d = _mod360(a - b); return d - 360.0 if d > 180.0 else d`. -/
def angdiff (a b : ℚ) : ℚ :=
  let d := mod360 (a - b)
  if d > 180 then d - 360 else d

/-- `_abs_sep(a, b) = abs(_angdiff(a, b))`. -/
def abs_sep (a b : ℚ) : ℚ := |angdiff a b|

/-- `_sign_index(deg) = int(math.floor(_mod360(deg) / 30.0))`. -/
def sign_index (deg : ℚ) : ℤ := ⌊mod360 deg / 30⌋

/-- `_segment_index(deg, segment_size) = int(math.floor(_mod360(deg) / segment_size))`. -/
def segment_index (deg : ℚ) (segment_size : ℚ) : ℤ := ⌊mod360 deg / segment_size⌋

/-- `NAKSHATRA_SEGMENT_DEG = 360.0 / 27.0`. -/
def NAKSHATRA_SEGMENT_DEG : ℚ := 360 / 27

/-- `PADA_SEGMENT_DEG = NAKSHATRA_SEGMENT_DEG / 4.0`. -/
def PADA_SEGMENT_DEG : ℚ := NAKSHATRA_SEGMENT_DEG / 4

/-- `_pada_from_segment_index(index) = (index // 4, index % 4 + 1)`
(Python floor division and modulo, hence `Int.fdiv` / `Int.fmod`). -/
def pada_from_segment_index (index : ℤ) : ℤ × ℤ :=
  (Int.fdiv index 4, Int.fmod index 4 + 1)

/-- `_pada_index_from_lon(lon)`: pada segment index of a longitude, decomposed
into (nakshatra index mod 27, pada). -/
def pada_index_from_lon (lon : ℚ) : ℤ × ℤ :=
  let deg := mod360 lon
  let segment := deg / PADA_SEGMENT_DEG
  let idx0 := ⌊segment⌋
  let idx := if idx0 < 0 then idx0 + 108 else idx0
  let np := pada_from_segment_index idx
  (Int.fmod np.1 27, np.2)

/-- `_julday(dt) = utc.timestamp() / 86400.0 + 2440587.5`. -/
def julday (ts : ℚ) : ℚ := ts / 86400 + 2440587.5

/-! ## Ephemeris adapter (`swiss.py`) -/

/-- The planet-name literal type `PlanetName` of `swiss.py`. -/
inductive PlanetName where
  | Sun | Moon | Mercury | Venus | Mars | Jupiter | Saturn
  | Uranus | Neptune | Pluto | Rahu | Ketu
deriving DecidableEq, Repr

/-- `PLANET_IDS`: the `swisseph` body ids (`SUN=0 … PLUTO=9, TRUE_NODE=11`);
Rahu and Ketu both map to `swe.TRUE_NODE`. -/
def PLANET_IDS : PlanetName → ℕ
  | .Sun => 0
  | .Moon => 1
  | .Mercury => 2
  | .Venus => 3
  | .Mars => 4
  | .Jupiter => 5
  | .Saturn => 6
  | .Uranus => 7
  | .Neptune => 8
  | .Pluto => 9
  | .Rahu => 11
  | .Ketu => 11

/-- The external ephemeris: `swe.calc_ut(jd, planet, flags)` returns an array
whose entry 0 is the (sidereal) longitude and entry 3 the speed. `none` models
a raised `swe.Error`; a `none` speed models an unavailable / NaN speed. -/
structure Ephem where
  calc_ut : ℚ → ℕ → Option (ℚ × Option ℚ)

/-- `_planet_lon_speed(dt, planet, with_speed)`: on error `(nan, None)`;
otherwise `(_mod360(xx[0]), xx[3] if with_speed else None)`. -/
def planet_lon_speed (e : Ephem) (dt : ℚ) (planet : ℕ) (with_speed : Bool) :
    Option ℚ × Option ℚ :=
  match e.calc_ut (julday dt) planet with
  | none => (none, none)
  | some (x0, x3) => (some (mod360 x0), if with_speed then x3 else none)

/-- `_planet_lon_fn(name)`: for Ketu, `_mod360(rahu_lon + 180.0)` where
`rahu_lon` is the Rahu longitude; NaN propagates. -/
def planet_lon_fn (name : PlanetName) (e : Ephem) (dt : ℚ) : Option ℚ :=
  if name = .Ketu then
    match (planet_lon_speed e dt (PLANET_IDS .Rahu) false).1 with
    | some lon => some (mod360 (lon + 180))
    | none => none
  else
    (planet_lon_speed e dt (PLANET_IDS name) false).1

/-- `_planet_speed_fn(name)`: the raw ephemeris speed (deg/day); for Ketu the
Rahu speed is returned unchanged. -/
def planet_speed_fn (name : PlanetName) (e : Ephem) (dt : ℚ) : Option ℚ :=
  if name = .Ketu then
    (planet_lon_speed e dt (PLANET_IDS .Rahu) true).2
  else
    (planet_lon_speed e dt (PLANET_IDS name) true).2

/-! ## Ephemeris file discovery (`swiss.py` `_candidate_ephe_paths`,
`_initialise_once`) -/

/-- `_candidate_ephe_paths()`: yields `$SWISS_EPHE_PATH` when set and
non-empty (Python truthiness), then `<repo>/vedic-ui/node_modules/swisseph/ephe`,
then `<repo>/swisseph/ephe`, then `/usr/share/swisseph`.  `base` stands for
`Path(__file__).resolve().parents[2]`, the repository root. -/
def candidate_ephe_paths (env : Option String) (base : String) : List String :=
  (match env with
   | some e => if e ≠ "" then [e] else []
   | none => []) ++
  [base ++ "/vedic-ui/node_modules/swisseph/ephe",
   base ++ "/swisseph/ephe",
   "/usr/share/swisseph"]

/-- Modelled from the spec sentence on the search order ("`$SWISS_EPHE_PATH`,
then `<repo>/swisseph/ephe`, then `<repo>/vedic-ui/node_modules/swisseph/ephe`,
then `/usr/share/swisseph`"), for comparison with `candidate_ephe_paths`. -/
def candidate_ephe_paths_spec (env : Option String) (base : String) : List String :=
  (match env with
   | some e => if e ≠ "" then [e] else []
   | none => []) ++
  [base ++ "/swisseph/ephe",
   base ++ "/vedic-ui/node_modules/swisseph/ephe",
   "/usr/share/swisseph"]

/-- The selection loop of `_initialise_once`:
`for candidate in _candidate_ephe_paths(): if candidate.is_dir():
set_ephe_path(candidate); break`. -/
def select_ephe_path (isDir : String → Bool) : List String → Option String
  | [] => none
  | c :: rest => if isDir c then some c else select_ephe_path isDir rest

/-- The ephemeris directory `_initialise_once` settles on. -/
def initialise_ephe_path (env : Option String) (base : String)
    (isDir : String → Bool) : Option String :=
  select_ephe_path isDir (candidate_ephe_paths env base)

/-- `swe.SIDM_LAHIRI` constant of the swisseph library. -/
def SIDM_LAHIRI : ℕ := 1

/-- `swe.SIDM_RAMAN` constant of the swisseph library. -/
def SIDM_RAMAN : ℕ := 3

/-- `_initialise_once` always calls `swe.set_sid_mode(swe.SIDM_RAMAN, 0, 0)`:
the process-wide sidereal mode, independent of any request parameter. -/
def initialise_sid_mode : ℕ := SIDM_RAMAN

/-! ## Signatures relevant to the ayanamsa plumbing (`swiss.py`, `main.py`,
`database.py`) -/

/-- The parameter list of `swiss.compute_monthly`, transcribed from its
definition: `def compute_monthly(lat, lon, tz_name, month_start_iso)`. -/
def compute_monthly_params : List String :=
  ["lat", "lon", "tz_name", "month_start_iso"]

/-- The arguments `main.swiss_monthly` passes to `compute_monthly` through
`anyio.to_thread.run_sync` (`payload.lat, payload.lon, payload.tz,
payload.month_start_iso, payload.ayanamsa`). -/
def swiss_monthly_call_args : List String :=
  ["lat", "lon", "tz", "month_start_iso", "ayanamsa"]

/-- The parameter list of `database.cache_month`, transcribed from its
definition: `async def cache_month(lat, lon, tz, month_start_iso, data)`. -/
def cache_month_params : List String :=
  ["lat", "lon", "tz", "month_start_iso", "data"]

/-- The arguments `main.swiss_monthly_batch` passes to `cache_month`
(`payload.lat, payload.lon, payload.tz, month_iso, data, payload.ayanamsa`). -/
def cache_month_call_args : List String :=
  ["lat", "lon", "tz", "month_iso", "data", "ayanamsa"]

/-- The column list of the `UNIQUE(location_hash, month_start)` constraint of
table `planetary_events` in `database.init_db`. -/
def planetary_events_unique_key : List String := ["location_hash", "month_start"]

/-! ## Persistent store (`database.py`) -/

/-- The key under which `cache_month` stores a record: `(loc_hash,
month_start_iso[:7])`, i.e. the location hash and the `YYYY-MM` prefix. -/
def month_key (loc_hash month_start_iso : String) : String × String :=
  (loc_hash, month_start_iso.take 7)

/-- The `planetary_events` table as an association list from
`(location_hash, month_start)` to the serialized record. -/
abbrev EventsTable := List ((String × String) × String)

/-- The write of `cache_month`: `INSERT … ON CONFLICT (location_hash,
month_start) DO UPDATE SET data = $3` — an upsert on the pair key. -/
def cache_month_upsert (t : EventsTable) (k : String × String) (data : String) :
    EventsTable :=
  if (List.any t (fun r => r.1 = k)) then
    List.map (fun r => if r.1 = k then (k, data) else r) t
  else
    t ++ [(k, data)]

/-- The read of `get_cached_month`: `SELECT data … WHERE location_hash = $1
AND month_start = $2`. -/
def table_lookup (t : EventsTable) (k : String × String) : Option String :=
  (List.find? (fun r => r.1 = k) t).map Prod.snd

/-! ## The scanner (`swiss.py` `_refine_boundary`, `_find_sign_changes`,
`_find_segment_changes`)

The scanned function `fn` has type `ℚ → Option ℚ` (`none` = NaN).  The
unbounded `while` loops take a fuel parameter; fuel is consumed once per
loop iteration, so any fuel at least the iteration count of the Python loop
reproduces it exactly.  In `_refine_boundary` Python would raise on
`_sign_index(nan)`; we model the sign index of NaN as the distinct value
`none`, which never compares equal to a real index. -/

/-- A `SignChange` record (also used for segment changes): refined boundary
instant and the classification indices on either side. -/
structure SignChange where
  time_utc : ℚ
  from_index : ℤ
  to_index : ℤ
deriving DecidableEq, Repr

/-- The dedup guard shared by the scanners:
`last_pushed is None or _datetime_range_seconds(last_pushed, exact) > 5.0`. -/
def dedup_ok (last_pushed : Option ℚ) (exact : ℚ) : Bool :=
  match last_pushed with
  | none => true
  | some lp => decide (exact - lp > 5)

/-- The bisection loop of `_refine_boundary`: halve `[a, b]` while the range
exceeds `desired_seconds`, keeping the endpoint classifications distinct, and
return `b`. -/
def refine_go (fn : ℚ → Option ℚ) (desired : ℚ) :
    Nat → ℚ → ℚ → Option ℤ → Option ℤ → ℚ
  | 0, _, b, _, _ => b
  | fuel + 1, a, b, s_left, s_right =>
    if b - a > desired then
      let mid := (a + b) / 2
      let s_mid := (fn mid).map sign_index
      if s_mid = s_left then refine_go fn desired fuel mid b s_mid s_right
      else refine_go fn desired fuel a mid s_left s_mid
    else b

/-- `_refine_boundary(fn, left, right, desired_seconds)`. -/
def refine_boundary (fn : ℚ → Option ℚ) (left right desired : ℚ) (fuel : Nat) : ℚ :=
  let s_left := (fn left).map sign_index
  let s_right := (fn right).map sign_index
  if s_left = s_right then right
  else refine_go fn desired fuel left right s_left s_right

/-- The seeding loop shared by `_find_sign_changes` and
`_find_segment_changes` (instantiated with the respective classification
`idx`): advance up to ten coarse steps, bounded by `endT`, until a finite
sample is found; `none` if all ten samples are NaN or the window is empty. -/
def scan_seed (fn : ℚ → Option ℚ) (idx : ℚ → ℤ) (endT coarse_delta : ℚ) :
    Nat → ℚ → Option (ℚ × ℤ)
  | 0, _ => none
  | guard + 1, t =>
    if t ≤ endT then
      match fn t with
      | some deg => some (t, idx deg)
      | none => scan_seed fn idx endT coarse_delta guard (min (t + coarse_delta) endT)
    else none

/-- The main loop of `_find_sign_changes`. -/
def fsc_go (fn : ℚ → Option ℚ) (endT coarse_delta : ℚ) (rfuel : Nat) :
    Nat → ℚ → ℤ → Option ℚ → List SignChange → List SignChange
  | 0, _, _, _, out => out
  | fuel + 1, t, prev_index, last_pushed, out =>
    if t < endT then
      let t_next := min (t + coarse_delta) endT
      match fn t_next with
      | none => fsc_go fn endT coarse_delta rfuel fuel t_next prev_index last_pushed out
      | some deg_next =>
        let next_index := sign_index deg_next
        if next_index ≠ prev_index then
          let exact := refine_boundary fn t t_next 1 rfuel
          match fn (exact - 1), fn (exact + 1) with
          | some before, some after =>
            if sign_index before = prev_index ∧ sign_index after = next_index ∧
               dedup_ok last_pushed exact = true then
              fsc_go fn endT coarse_delta rfuel fuel t_next next_index (some exact)
                (out ++ [⟨exact, prev_index, next_index⟩])
            else
              fsc_go fn endT coarse_delta rfuel fuel t_next prev_index last_pushed out
          | _, _ =>
            fsc_go fn endT coarse_delta rfuel fuel t_next prev_index last_pushed out
        else fsc_go fn endT coarse_delta rfuel fuel t_next prev_index last_pushed out
    else out

/-- `_find_sign_changes(fn, start, end, coarse_minutes)`.  `rfuel` bounds the
inner bisection (geometrically convergent in the source), `fuel` the outer
traversal. -/
def find_sign_changes (fn : ℚ → Option ℚ) (start endT coarse_minutes : ℚ)
    (rfuel fuel : Nat) : List SignChange :=
  let coarse_delta := 60 * coarse_minutes
  match scan_seed fn sign_index endT coarse_delta 10 start with
  | none => []
  | some (t, prev_index) => fsc_go fn endT coarse_delta rfuel fuel t prev_index none []

/-- The inner 60-iteration bisection of `_find_segment_changes`; `left_idx`
is fixed at `prev_index`, and `next_index` is updated whenever the midpoint
classifies differently.  Returns `(right, next_index)`. -/
def seg_bisect (fn : ℚ → Option ℚ) (segment_size : ℚ) :
    Nat → ℚ → ℚ → ℤ → ℤ → ℚ × ℤ
  | 0, _, right, _, next_index => (right, next_index)
  | fuel + 1, left, right, left_idx, next_index =>
    if right - left ≤ 1 then (right, next_index)
    else
      let mid := (left + right) / 2
      match fn mid with
      | none => seg_bisect fn segment_size fuel mid right left_idx next_index
      | some deg_mid =>
        let mid_idx := segment_index deg_mid segment_size
        if mid_idx = left_idx then seg_bisect fn segment_size fuel mid right left_idx next_index
        else seg_bisect fn segment_size fuel left mid left_idx mid_idx

/-- The main loop of `_find_segment_changes`.  Note: unlike
`_find_sign_changes` there is no hysteresis evaluation at `exact ± 1 s`; the
refined boundary is pushed subject only to the 5-second dedup guard, and on a
push the traversal resumes from `exact`.  `bfuel` is the iteration bound of
the inner bisection, 60 in the source (`for _ in range(60)`), supplied at the
call site in `find_segment_changes`. -/
def fseg_go (fn : ℚ → Option ℚ) (endT segment_size coarse_delta : ℚ) (bfuel : Nat) :
    Nat → ℚ → ℤ → Option ℚ → List SignChange → List SignChange
  | 0, _, _, _, out => out
  | fuel + 1, t, prev_index, last_pushed, out =>
    if t < endT then
      let t_next := min (t + coarse_delta) endT
      match fn t_next with
      | none => fseg_go fn endT segment_size coarse_delta bfuel fuel t_next prev_index last_pushed out
      | some deg_next =>
        let next_index0 := segment_index deg_next segment_size
        if next_index0 ≠ prev_index then
          let r := seg_bisect fn segment_size bfuel t t_next prev_index next_index0
          if dedup_ok last_pushed r.1 = true then
            fseg_go fn endT segment_size coarse_delta bfuel fuel r.1 r.2 (some r.1)
              (out ++ [⟨r.1, prev_index, r.2⟩])
          else
            fseg_go fn endT segment_size coarse_delta bfuel fuel t_next prev_index last_pushed out
        else fseg_go fn endT segment_size coarse_delta bfuel fuel t_next prev_index last_pushed out
    else out

/-- `_find_segment_changes(fn, start, end, segment_size, coarse_minutes)`. -/
def find_segment_changes (fn : ℚ → Option ℚ) (start endT segment_size coarse_minutes : ℚ)
    (fuel : Nat) : List SignChange :=
  let coarse_delta := 60 * coarse_minutes
  match scan_seed fn (fun deg => segment_index deg segment_size) endT coarse_delta 10 start with
  | none => []
  | some (t, prev_index) => fseg_go fn endT segment_size coarse_delta 60 fuel t prev_index none []

/-- The hysteresis post-condition of the spec: the scanned function is finite
at one second before/after the refined instant and classifies to the from/to
index there.  `idx` is the classification (sign bin or segment bin). -/
def hyst_ok (fn : ℚ → Option ℚ) (idx : ℚ → ℤ) (e : SignChange) : Prop :=
  (fn (e.time_utc - 1)).map idx = some e.from_index ∧
  (fn (e.time_utc + 1)).map idx = some e.to_index

/-- The dedup bound between two consecutively emitted events. -/
def gap5 (a b : SignChange) : Prop := b.time_utc - a.time_utc > 5

/-- The instant of the most recently emitted event, mirroring `last_pushed`. -/
def lastTimeOpt (l : List SignChange) : Option ℚ := l.getLast?.map SignChange.time_utc

/-! ## Stations (`swiss.py` `_velocity_deg_per_hr`, `_find_stations`) -/

/-- `_velocity_deg_per_hr(fn, dt)`: central difference of longitude over
±30 min, `_angdiff(fn(dt + 0.5 h), fn(dt − 0.5 h)) / 1.0`; NaN propagates. -/
def velocity_deg_per_hr (fn : ℚ → Option ℚ) (dt : ℚ) : Option ℚ :=
  match fn (dt + 1800), fn (dt - 1800) with
  | some a, some b => some (angdiff a b)
  | _, _ => none

/-- The `velocity_at` closure of `_find_stations`: the ephemeris speed
(deg/day divided by 24) when a `speed_fn` is supplied, the central difference
otherwise. -/
def velocity_at (speed_fn : Option (ℚ → Option ℚ)) (fn : ℚ → Option ℚ) (dt : ℚ) :
    Option ℚ :=
  match speed_fn with
  | some sf =>
    match sf dt with
    | none => none
    | some per_day => some (per_day / 24)
  | none => velocity_deg_per_hr fn dt

/-- The `safe_sign` closure of `_find_stations`: non-finite values and values
of magnitude below 1e-6 °/h classify as 0; otherwise the sign. -/
def safe_sign (v : Option ℚ) : ℤ :=
  match v with
  | none => 0
  | some value => if |value| < 1 / 1000000 then 0 else if value > 0 then 1 else -1

/-- The station kind literal of `StationEvent`. -/
inductive StationKind where
  | retrograde
  | direct
deriving DecidableEq, Repr

/-- The `StationEvent` dataclass. -/
structure StationEvent where
  planet : String
  time_utc : ℚ
  kind : StationKind
deriving DecidableEq, Repr

/-- The seeding loop of `_find_stations`: up to 48 coarse samples looking for
a nonzero `safe_sign`; returns `(prev_time, prev_sign)`. -/
def station_seed (vel : ℚ → Option ℚ) (endT step : ℚ) : Nat → ℚ → ℚ × ℤ
  | 0, t => (t, 0)
  | guard + 1, t =>
    if t < endT then
      if safe_sign (vel t) = 0 then
        station_seed vel endT step guard (min (t + step) endT)
      else (t, safe_sign (vel t))
    else (t, 0)

/-- The inner bisection of `_find_stations` (`for _ in range(40)`), on the
sign of the velocity; a zero midpoint sign moves the left endpoint and resets
`sign_a`.  Returns `b`. -/
def station_bisect (vel : ℚ → Option ℚ) : Nat → ℚ → ℚ → ℤ → ℚ
  | 0, _, b, _ => b
  | n + 1, a, b, sign_a =>
    if b - a ≤ 1 then b
    else
      let mid := (a + b) / 2
      let mid_sign := safe_sign (vel mid)
      if mid_sign = 0 then station_bisect vel n mid b 0
      else if mid_sign = sign_a ∨ sign_a = 0 then station_bisect vel n mid b mid_sign
      else station_bisect vel n a mid sign_a

/-- The main loop of `_find_stations`: on an opposite nonzero sign pair,
bisect, classify (negative ⇒ retrograde), and append, dropping or replacing
the previous event when it lies within 6 h (same kind: drop the new one;
different kind: pop the old one).  `bfuel` is the bisection bound, 40 in the
source, supplied in `find_stations`. -/
def stations_go (vel : ℚ → Option ℚ) (endT step : ℚ) (planet : String) (bfuel : Nat) :
    Nat → ℚ → ℚ → ℤ → List StationEvent → List StationEvent
  | 0, _, _, _, out => out
  | fuel + 1, t, prev_time, prev_sign, out =>
    if t < endT then
      let t_next := min (t + step) endT
      let curr_sign := safe_sign (vel t_next)
      if curr_sign ≠ 0 ∧ prev_sign ≠ 0 ∧ curr_sign ≠ prev_sign then
        let b := station_bisect vel bfuel prev_time t_next prev_sign
        let kind : StationKind := if curr_sign < 0 then .retrograde else .direct
        match out.getLast? with
        | some last_ev =>
          if b - last_ev.time_utc < 6 * 3600 then
            if last_ev.kind = kind then
              stations_go vel endT step planet bfuel fuel t_next t_next curr_sign out
            else
              stations_go vel endT step planet bfuel fuel t_next t_next curr_sign
                (out.dropLast ++ [⟨planet, b, kind⟩])
          else
            stations_go vel endT step planet bfuel fuel t_next t_next curr_sign
              (out ++ [⟨planet, b, kind⟩])
        | none =>
          stations_go vel endT step planet bfuel fuel t_next t_next curr_sign
            (out ++ [⟨planet, b, kind⟩])
      else if curr_sign ≠ 0 then
        stations_go vel endT step planet bfuel fuel t_next t_next curr_sign out
      else
        stations_go vel endT step planet bfuel fuel t_next prev_time prev_sign out
    else out

/-- `_find_stations(fn, start, end, coarse_minutes, speed_fn, planet_name)`. -/
def find_stations (fn : ℚ → Option ℚ) (start endT coarse_minutes : ℚ)
    (speed_fn : Option (ℚ → Option ℚ)) (planet_name : String) (fuel : Nat) :
    List StationEvent :=
  let step := 60 * coarse_minutes
  let vel := velocity_at speed_fn fn
  let seeded := station_seed vel endT step 48 start
  if seeded.2 = 0 then []
  else stations_go vel endT step planet_name 40 fuel seeded.1 seeded.1 seeded.2 []

/-- Two velocity samples of magnitude at least 1e-6 with opposite signs. -/
def opp_samples (vel : ℚ → Option ℚ) : Prop :=
  ∃ t1 t2 v1 v2, vel t1 = some v1 ∧ vel t2 = some v2 ∧
    1 / 1000000 ≤ |v1| ∧ 1 / 1000000 ≤ |v2| ∧
    (v1 < 0 ∧ 0 < v2 ∨ 0 < v1 ∧ v2 < 0)

/-! ## Station pairing in `compute_monthly` (`swiss.py` lines 1061-1107) -/

/-- A `stationRows` entry (`RetrogradeWindow`): times kept as instants; the
source renders them as local wall-clock strings. -/
structure RetroWindow where
  planet : String
  startT : ℚ
  endT : ℚ
deriving DecidableEq, Repr

/-- Stable insertion of a station event by time, for `sortStations`. -/
def insertStation (e : StationEvent) : List StationEvent → List StationEvent
  | [] => [e]
  | x :: xs => if e.time_utc ≤ x.time_utc then e :: x :: xs else x :: insertStation e xs

/-- `sorted(events, key=lambda ev: ev.time_utc)` (a stable sort). -/
def sortStations : List StationEvent → List StationEvent
  | [] => []
  | x :: xs => insertStation x (sortStations xs)

/-- `initial_retro` of `compute_monthly`: the ephemeris speed at the window
start when finite, else the ±30 min central difference; `NaN < 0` is `False`
in Python, hence `none ↦ false`. -/
def station_initial_retro (speed_fn fn : ℚ → Option ℚ) (start_utc : ℚ) : Bool :=
  match speed_fn start_utc with
  | some sp => decide (sp < 0)
  | none =>
    match velocity_deg_per_hr fn start_utc with
    | some v => decide (v < 0)
    | none => false

/-- The pairing loop over sorted station events: a retrograde station opens
(or re-opens) a window at its instant; a direct station closes the open
window — opening it at the scan start when none is open — and emits it.
Returns the emitted windows and the still-open start, mirroring the loop
variable `retro_start`. -/
def pair_go (planet : String) (start_utc : ℚ) :
    List StationEvent → Option ℚ → List RetroWindow → List RetroWindow × Option ℚ
  | [], retro_start, acc => (acc, retro_start)
  | ev :: rest, retro_start, acc =>
    match ev.kind with
    | .retrograde => pair_go planet start_utc rest (some ev.time_utc) acc
    | .direct =>
        pair_go planet start_utc rest none
          (acc ++ [⟨planet, retro_start.getD start_utc, ev.time_utc⟩])

/-- The station-window construction of `compute_monthly` for one planet:
skip when the scan found no events; otherwise sort, pair, and clip a trailing
open window to `min(end_utc, month_end_utc)`. -/
def station_windows (planet : String) (speed_fn fn : ℚ → Option ℚ)
    (events : List StationEvent) (start_utc end_utc month_end_utc : ℚ) :
    List RetroWindow :=
  if events = [] then []
  else
    let initial_retro := station_initial_retro speed_fn fn start_utc
    let r := pair_go planet start_utc (sortStations events)
      (if initial_retro then some start_utc else none) []
    match r.2 with
    | some retro_start => r.1 ++ [⟨planet, retro_start, min end_utc month_end_utc⟩]
    | none => r.1

/-! ## Moon monthly rows and ingress rows in `compute_monthly`
(`swiss.py` lines 959-1039)

The timezone round trip `_format_local` / `_from_iso_local` / `.timestamp()`
applied to each emitted instant is abstracted as a parameter
`reproject : ℚ → ℚ`; `month_start_ms` / `month_end_ms` are the local month
bounds as epoch seconds.  Row times are kept as the reprojected instants and
nakshatra names as their indices into `NAKSHATRA_NAMES`. -/

/-- A `moonMonthlyRows` entry: instant, nakshatra index, pada. -/
structure MoonRow where
  timeMs : ℚ
  nakshatra : ℤ
  pada : ℤ
deriving DecidableEq, Repr

/-- The row built from one Moon pada crossing, `None` when the reprojected
instant falls outside `[month_start_ms, month_end_ms)`. -/
def moon_change_row (reproject : ℚ → ℚ) (month_start_ms month_end_ms : ℚ)
    (c : SignChange) : Option MoonRow :=
  let ms := reproject c.time_utc
  if month_start_ms ≤ ms ∧ ms < month_end_ms then
    some ⟨ms, Int.fmod (pada_from_segment_index c.to_index).1 27,
      (pada_from_segment_index c.to_index).2⟩
  else none

/-- The `moon_monthly` construction of `compute_monthly`: when the scan over
the whole padded window returned no crossings and the Moon longitude at the
month start is finite, a single synthetic record at the month start; then the
in-month crossings. -/
def moon_monthly_rows (reproject : ℚ → ℚ) (month_start_ms month_end_ms : ℚ)
    (lon_at_start : Option ℚ) (changes : List SignChange) : List MoonRow :=
  (if changes.isEmpty then
    match lon_at_start with
    | some lv =>
        [⟨month_start_ms, Int.fmod (pada_index_from_lon lv).1 27,
          (pada_index_from_lon lv).2⟩]
    | none => []
  else []) ++
  changes.filterMap (moon_change_row reproject month_start_ms month_end_ms)

/-- A `sunRows` entry. -/
structure SunRow where
  fromIdx : ℤ
  toIdx : ℤ
  timeMs : ℚ
deriving DecidableEq, Repr

/-- The row built from one Sun sign change, filtered to the month. -/
def sun_row_of_change (reproject : ℚ → ℚ) (month_start_ms month_end_ms : ℚ)
    (c : SignChange) : Option SunRow :=
  let ms := reproject c.time_utc
  if month_start_ms ≤ ms ∧ ms < month_end_ms then
    some ⟨c.from_index, c.to_index, ms⟩
  else none

/-- The `sun_rows` construction of `compute_monthly`. -/
def sun_rows_of_changes (reproject : ℚ → ℚ) (month_start_ms month_end_ms : ℚ)
    (changes : List SignChange) : List SunRow :=
  changes.filterMap (sun_row_of_change reproject month_start_ms month_end_ms)

/-- An `otherIngressRows` entry: body, sign indices, instant. -/
structure IngressRow where
  body : String
  fromIdx : ℤ
  toIdx : ℤ
  timeMs : ℚ
deriving DecidableEq, Repr

/-- The row built from one planet sign change, filtered to the month. -/
def ingress_change_row (reproject : ℚ → ℚ) (month_start_ms month_end_ms : ℚ)
    (body : String) (c : SignChange) : Option IngressRow :=
  let ms := reproject c.time_utc
  if month_start_ms ≤ ms ∧ ms < month_end_ms then
    some ⟨body, c.from_index, c.to_index, ms⟩
  else none

/-- The `planet_rows` construction of `compute_monthly` for one planet: when
the scan found no changes, a placeholder row whose from and to are both the
planet's current sign at the month start (`anchor_local`); otherwise the
in-month changes. -/
def other_ingress_rows_for_planet (reproject : ℚ → ℚ)
    (month_start_ms month_end_ms month_start_local : ℚ) (planet : String)
    (lon_at_anchor : ℚ) (changes : List SignChange) : List IngressRow :=
  if changes = [] then
    [⟨planet, sign_index lon_at_anchor, sign_index lon_at_anchor, month_start_local⟩]
  else changes.filterMap (ingress_change_row reproject month_start_ms month_end_ms planet)

/-- The C3 counterexample input: a 35-degree spike on `[99, 100.05)` over a
zero background, sampled with 1-minute coarse steps.  The spike is wider than
the bisection resolution but narrower than the +1 s hysteresis offset. -/
def f3 : ℚ → Option ℚ := fun t => some (if 99 ≤ t ∧ t < 100 + 1 / 20 then 35 else 0)

/-- The C3 witness input: a clean step from 10° to 40° at t = 100. -/
def f4 : ℚ → Option ℚ := fun t => some (if t < 100 then 10 else 40)

/-- A directory predicate for the C8 counterexample: both repository
candidate directories exist. -/
def ephe_isdir_both : String → Bool := fun s =>
  s == "/r/swisseph/ephe" || s == "/r/vedic-ui/node_modules/swisseph/ephe"

/-! ## The claims -/

/-- C1: the claim says `compute_monthly` accepts an ayanamsa argument as its
fifth parameter and applies the selected sidereal zero-point.  In the code,
`compute_monthly` has exactly four parameters, none named `ayanamsa`, while
its caller `main.swiss_monthly` passes five arguments, and the sidereal mode
set by `_initialise_once` is the constant `SIDM_RAMAN`.  So the documented
call crashes with a `TypeError` and no ayanamsa selection ever happens. -/
theorem C1_compute_monthly_has_no_ayanamsa :
    compute_monthly_params.length = 4 ∧
    "ayanamsa" ∉ compute_monthly_params ∧
    swiss_monthly_call_args.length = 5 ∧
    initialise_sid_mode = SIDM_RAMAN := by
  refine ⟨rfl, ?_, rfl, rfl⟩
  decide

/-- C2: at every instant at which the Rahu longitude is finite, the Ketu
longitude is finite and equals `(Rahu + 180) mod 360` exactly, hence every
returned Ketu longitude is within 1e-6 degrees of that value. -/
theorem C2_ketu_identity (e : Ephem) (dt r : ℚ)
    (hR : planet_lon_fn .Rahu e dt = some r) :
    planet_lon_fn .Ketu e dt = some (mod360 (r + 180)) ∧
    ∀ k, planet_lon_fn .Ketu e dt = some k → |k - mod360 (r + 180)| ≤ 1 / 1000000 := by
  have hR2 : (planet_lon_speed e dt (PLANET_IDS .Rahu) false).1 = some r := by
    simpa [planet_lon_fn] using hR
  have hK : planet_lon_fn .Ketu e dt = some (mod360 (r + 180)) := by
    simp [planet_lon_fn, hR2]
  refine ⟨hK, ?_⟩
  intro k hk
  rw [hK] at hk
  have : mod360 (r + 180) = k := by injection hk
  rw [← this]
  simp

/-- C7: the claim says the persistent store keys a month by the triple
`(loc_hash, yyyy_mm, ayanamsa)` so that different ayanamsas occupy distinct
entries.  In the code the key is the pair `(location_hash, month_start)`:
`cache_month` has no ayanamsa parameter (though `main.py` passes one), the
table's unique constraint has two columns, and a second upsert at the same
location and month replaces the first record — so two writes that differ only
in ayanamsa would share one entry, the second overwriting the first. -/
theorem C7_store_keyed_by_pair :
    cache_month_params.length = 5 ∧
    "ayanamsa" ∉ cache_month_params ∧
    cache_month_call_args.length = 6 ∧
    planetary_events_unique_key.length = 2 ∧
    "ayanamsa" ∉ planetary_events_unique_key ∧
    (∀ (lh m d1 d2 : String),
      table_lookup
        (cache_month_upsert (cache_month_upsert [] (month_key lh m) d1)
          (month_key lh m) d2)
        (month_key lh m) = some d2) := by
  refine ⟨rfl, by decide, rfl, rfl, by decide, ?_⟩
  intro lh m d1 d2
  simp [cache_month_upsert, table_lookup, month_key]

/-- C8 counterexample: with no environment override and both repository
directories present, the code selects `<repo>/vedic-ui/node_modules/swisseph/ephe`
while the claimed order would select `<repo>/swisseph/ephe`; the candidate
lists themselves differ in the order of the middle two entries. -/
theorem C8_ephe_order_cex :
    initialise_ephe_path none "/r" ephe_isdir_both =
      some "/r/vedic-ui/node_modules/swisseph/ephe" ∧
    (candidate_ephe_paths_spec none "/r").find? ephe_isdir_both =
      some "/r/swisseph/ephe" ∧
    candidate_ephe_paths none "/r" ≠ candidate_ephe_paths_spec none "/r" := by
  refine ⟨rfl, rfl, ?_⟩
  decide

/-- C8 amended: the search visits `$SWISS_EPHE_PATH` first (when set and
non-empty), then `<repo>/vedic-ui/node_modules/swisseph/ephe`, then
`<repo>/swisseph/ephe`, then `/usr/share/swisseph`, and the first existing
directory is selected (the selection loop is `List.find?` on that order). -/
theorem C8_ephe_order_amended (env : Option String) (base : String)
    (isDir : String → Bool) :
    candidate_ephe_paths none base =
      [base ++ "/vedic-ui/node_modules/swisseph/ephe",
       base ++ "/swisseph/ephe",
       "/usr/share/swisseph"] ∧
    (∀ e, env = some e → e ≠ "" →
      candidate_ephe_paths env base = e :: candidate_ephe_paths none base) ∧
    initialise_ephe_path env base isDir =
      (candidate_ephe_paths env base).find? isDir := by
  refine ⟨rfl, ?_, ?_⟩
  · rintro e rfl he
    simp [candidate_ephe_paths, he]
  · unfold initialise_ephe_path
    generalize candidate_ephe_paths env base = l
    induction l with
    | nil => rfl
    | cons c rest ih =>
        by_cases h : isDir c
        · simp [select_ephe_path, List.find?, h]
        · simp only [select_ephe_path, List.find?, h, if_neg, Bool.false_eq_true,
            not_false_eq_true, if_false]
          simpa [h] using ih

/-- Witness for C8 amended at a concrete override and directory predicate. -/
theorem C8_ephe_order_amended_witness :
    candidate_ephe_paths none "/repo" =
      ["/repo/vedic-ui/node_modules/swisseph/ephe",
       "/repo/swisseph/ephe",
       "/usr/share/swisseph"] ∧
    candidate_ephe_paths (some "/custom") "/repo" =
      "/custom" :: candidate_ephe_paths none "/repo" ∧
    initialise_ephe_path (some "/custom") "/repo" (fun s => s == "/repo/swisseph/ephe") =
      (candidate_ephe_paths (some "/custom") "/repo").find?
        (fun s => s == "/repo/swisseph/ephe") := by
  have h := C8_ephe_order_amended (some "/custom") "/repo"
    (fun s => s == "/repo/swisseph/ephe")
  exact ⟨h.1, h.2.1 "/custom" rfl (by decide), h.2.2⟩

lemma chain5_snoc {l : List SignChange} {e : SignChange} {lp : Option ℚ}
    (hc : List.Chain' gap5 l) (hl : lastTimeOpt l = lp)
    (hd : dedup_ok lp e.time_utc = true) :
    List.Chain' gap5 (l ++ [e]) ∧ lastTimeOpt (l ++ [e]) = some e.time_utc := by
  constructor
  · refine List.Chain'.append hc (List.chain'_singleton e) ?_
    intro x hx y hy
    simp only [List.head?_cons, Option.mem_def, Option.some.injEq] at hy
    subst hy
    have hlp : lp = some x.time_utc := by
      rw [← hl]
      simp only [lastTimeOpt]
      rw [Option.mem_def] at hx
      rw [hx]
      rfl
    rw [hlp] at hd
    simpa [dedup_ok, gap5] using of_decide_eq_true hd
  · simp [lastTimeOpt]

lemma fsc_go_inv (fn : ℚ → Option ℚ) (endT coarse_delta : ℚ) (rfuel fuel : Nat) :
    ∀ t prev_index last_pushed out,
      List.Chain' gap5 out → lastTimeOpt out = last_pushed →
      (∀ e ∈ out, hyst_ok fn sign_index e ∧ e.from_index ≠ e.to_index) →
      List.Chain' gap5 (fsc_go fn endT coarse_delta rfuel fuel t prev_index last_pushed out) ∧
      (∀ e ∈ fsc_go fn endT coarse_delta rfuel fuel t prev_index last_pushed out,
        hyst_ok fn sign_index e ∧ e.from_index ≠ e.to_index) := by
  induction fuel with
  | zero =>
      intro t p lp out hc hl he
      exact ⟨hc, he⟩
  | succ fuel ih =>
      intro t p lp out hc hl he
      rw [fsc_go]
      split
      · dsimp only
        split
        · exact ih _ _ _ _ hc hl he
        · rename_i deg_next heq
          split
          · rename_i hne
            split
            · rename_i before after hbefore hafter
              split
              · rename_i hcond
                obtain ⟨h1, h2, h3⟩ := hcond
                refine ih _ _ _ _ (chain5_snoc hc hl h3).1 (chain5_snoc hc hl h3).2 ?_
                intro e hmem
                rcases List.mem_append.1 hmem with h | h
                · exact he e h
                · rcases List.mem_singleton.1 h with rfl
                  refine ⟨?_, fun hcontra => hne hcontra.symm⟩
                  simp only [hyst_ok]
                  constructor
                  · rw [hbefore]; simpa using h1
                  · rw [hafter]; simpa using h2
              · exact ih _ _ _ _ hc hl he
            all_goals exact ih _ _ _ _ hc hl he
          · exact ih _ _ _ _ hc hl he
      · exact ⟨hc, he⟩

lemma fseg_go_inv (fn : ℚ → Option ℚ) (endT segment_size coarse_delta : ℚ)
    (bfuel fuel : Nat) :
    ∀ t prev_index last_pushed out,
      List.Chain' gap5 out → lastTimeOpt out = last_pushed →
      List.Chain' gap5
        (fseg_go fn endT segment_size coarse_delta bfuel fuel t prev_index last_pushed out) := by
  induction fuel with
  | zero =>
      intro t p lp out hc hl
      exact hc
  | succ fuel ih =>
      intro t p lp out hc hl
      rw [fseg_go]
      split
      · dsimp only
        split
        · exact ih _ _ _ _ hc hl
        · rename_i deg_next heq
          split
          · rename_i hne
            split
            · rename_i hpush
              exact ih _ _ _ _ (chain5_snoc hc hl hpush).1 (chain5_snoc hc hl hpush).2
            · exact ih _ _ _ _ hc hl
          · exact ih _ _ _ _ hc hl
      · exact hc

/-- C3 (amended): every boundary crossing emitted by a sign-index scan
satisfies the hysteresis post-condition — the scanned function is finite at
the refined instant minus/plus 1 s and classifies to the from and to index there, and a
candidate failing either evaluation is skipped.  (The segment-index scanner
performs no such check; see the counterexample.) -/
theorem C3_sign_scan_hysteresis (fn : ℚ → Option ℚ) (start endT coarse_minutes : ℚ)
    (rfuel fuel : Nat) :
    ∀ e ∈ find_sign_changes fn start endT coarse_minutes rfuel fuel,
      hyst_ok fn sign_index e := by
  unfold find_sign_changes
  dsimp only
  split
  · intro e he
    cases he
  · intro e he
    exact ((fsc_go_inv fn _ _ rfuel fuel _ _ none [] List.chain'_nil rfl
      (by intro e h; cases h)).2 e he).1

/-- C9: in the list returned by a single sign-change scan and in the list
returned by a single segment-change scan, every two consecutively emitted
events are strictly more than 5 seconds apart (`gap5`), because an emission
within 5 s of `last_pushed` is suppressed. -/
theorem C9_scan_dedup_bound (fn : ℚ → Option ℚ)
    (start endT coarse_minutes segment_size : ℚ) (rfuel fuel : Nat) :
    List.Chain' gap5 (find_sign_changes fn start endT coarse_minutes rfuel fuel) ∧
    List.Chain' gap5 (find_segment_changes fn start endT segment_size coarse_minutes fuel) := by
  constructor
  · unfold find_sign_changes
    dsimp only
    split
    · exact List.chain'_nil
    · exact (fsc_go_inv fn _ _ rfuel fuel _ _ none [] List.chain'_nil rfl
        (by intro e h; cases h)).1
  · unfold find_segment_changes
    dsimp only
    split
    · exact List.chain'_nil
    · exact fseg_go_inv fn _ _ _ 60 fuel _ _ none [] List.chain'_nil rfl

lemma safe_sign_some (x : ℚ) :
    safe_sign (some x) = if |x| < 1 / 1000000 then 0 else if x > 0 then 1 else -1 := rfl

lemma safe_sign_ne_zero {vel : ℚ → Option ℚ} {t : ℚ} (h : safe_sign (vel t) ≠ 0) :
    ∃ v, vel t = some v ∧ 1 / 1000000 ≤ |v| ∧
      (0 < v ∧ safe_sign (vel t) = 1 ∨ v < 0 ∧ safe_sign (vel t) = -1) := by
  cases hv : vel t with
  | none => rw [hv] at h; exact absurd rfl h
  | some v =>
      rw [hv] at h
      have hge : ¬ |v| < 1 / 1000000 := by
        intro hlt
        exact h (by rw [safe_sign_some, if_pos hlt])
      refine ⟨v, rfl, le_of_not_lt hge, ?_⟩
      by_cases hpos : v > 0
      · exact Or.inl ⟨hpos, by rw [safe_sign_some, if_neg hge, if_pos hpos]⟩
      · have hne : v ≠ 0 := by
          intro h0
          exact hge (by rw [h0]; norm_num)
        have hneg : v < 0 := lt_of_le_of_ne (le_of_not_lt hpos) hne
        exact Or.inr ⟨hneg, by rw [safe_sign_some, if_neg hge, if_neg hpos]⟩

lemma opp_of_opposite_signs (vel : ℚ → Option ℚ) (t1 t2 : ℚ)
    (h1 : safe_sign (vel t1) ≠ 0) (h2 : safe_sign (vel t2) ≠ 0)
    (hne : safe_sign (vel t1) ≠ safe_sign (vel t2)) : opp_samples vel := by
  obtain ⟨v1, hv1, hm1, hs1⟩ := safe_sign_ne_zero h1
  obtain ⟨v2, hv2, hm2, hs2⟩ := safe_sign_ne_zero h2
  rcases hs1 with ⟨hp1, he1⟩ | ⟨hn1, he1⟩ <;> rcases hs2 with ⟨hp2, he2⟩ | ⟨hn2, he2⟩
  · exact absurd (he1.trans he2.symm) hne
  · exact ⟨t1, t2, v1, v2, hv1, hv2, hm1, hm2, Or.inr ⟨hp1, hn2⟩⟩
  · exact ⟨t1, t2, v1, v2, hv1, hv2, hm1, hm2, Or.inl ⟨hn1, hp2⟩⟩
  · exact absurd (he1.trans he2.symm) hne

lemma station_seed_dead (vel : ℚ → Option ℚ) (endT step : ℚ)
    (hdead : ∀ t, safe_sign (vel t) = 0) :
    ∀ g t, (station_seed vel endT step g t).2 = 0 := by
  intro g
  induction g with
  | zero => intro t; rfl
  | succ g ih =>
      intro t
      rw [station_seed]
      split
      · rw [if_pos (hdead t)]
        exact ih _
      · rfl

lemma station_seed_sign (vel : ℚ → Option ℚ) (endT step : ℚ) :
    ∀ g t, (station_seed vel endT step g t).2 = 0 ∨
      (station_seed vel endT step g t).2 =
        safe_sign (vel (station_seed vel endT step g t).1) := by
  intro g
  induction g with
  | zero => intro t; exact Or.inl rfl
  | succ g ih =>
      intro t
      rw [station_seed]
      split
      · split
        · exact ih _
        · exact Or.inr rfl
      · exact Or.inl rfl

lemma stations_go_opp (vel : ℚ → Option ℚ) (endT step : ℚ) (planet : String)
    (bfuel fuel : Nat) :
    ∀ t prev_time prev_sign out,
      (prev_sign = 0 ∨ ∃ tp, safe_sign (vel tp) = prev_sign) →
      (out ≠ [] → opp_samples vel) →
      stations_go vel endT step planet bfuel fuel t prev_time prev_sign out ≠ [] →
      opp_samples vel := by
  induction fuel with
  | zero =>
      intro t pt ps out _ hout h
      exact hout h
  | succ fuel ih =>
      intro t pt ps out hps hout h
      rw [stations_go] at h
      revert h
      split
      · dsimp only
        split
        · rename_i hcond
          obtain ⟨hc0, hp0, hcp⟩ := hcond
          obtain ⟨tp, htp⟩ := hps.resolve_left hp0
          have hopp : opp_samples vel := by
            refine opp_of_opposite_signs vel tp (min (t + step) endT)
              ?_ hc0 ?_
            · rw [htp]; exact hp0
            · rw [htp]; exact fun hcontra => hcp hcontra.symm
          split <;> (try split) <;> (try split) <;> (try split) <;>
            exact fun h => ih _ _ _ _ (Or.inr ⟨_, rfl⟩) (fun _ => hopp) h
        · split
          · exact fun h => ih _ _ _ _ (Or.inr ⟨_, rfl⟩) hout h
          · exact fun h => ih _ _ _ _ hps hout h
      · exact fun h => hout h

/-- C10: (i) a sampled velocity that is non-finite or of magnitude below
1e-6 °/h classifies as sign 0; (ii) when every sample lies in the dead zone
the station scan returns the empty list; (iii) a nonempty station scan
requires two opposite-signed velocity samples of magnitude at least 1e-6. -/
theorem C10_station_dead_zone :
    (∀ v : Option ℚ, (v = none ∨ ∃ x, v = some x ∧ |x| < 1 / 1000000) →
      safe_sign v = 0) ∧
    (∀ (fn : ℚ → Option ℚ) (start endT coarse_minutes : ℚ)
       (speed_fn : Option (ℚ → Option ℚ)) (planet : String) (fuel : Nat),
      (∀ t, safe_sign (velocity_at speed_fn fn t) = 0) →
      find_stations fn start endT coarse_minutes speed_fn planet fuel = []) ∧
    (∀ (fn : ℚ → Option ℚ) (start endT coarse_minutes : ℚ)
       (speed_fn : Option (ℚ → Option ℚ)) (planet : String) (fuel : Nat),
      find_stations fn start endT coarse_minutes speed_fn planet fuel ≠ [] →
      opp_samples (velocity_at speed_fn fn)) := by
  refine ⟨?_, ?_, ?_⟩
  · rintro v (rfl | ⟨x, rfl, hx⟩)
    · rfl
    · rw [safe_sign_some, if_pos hx]
  · intro fn start endT cm sf planet fuel hdead
    unfold find_stations
    dsimp only
    rw [if_pos (station_seed_dead _ _ _ hdead 48 start)]
  · intro fn start endT cm sf planet fuel h
    unfold find_stations at h
    dsimp only at h
    set vel := velocity_at sf fn with hvel
    by_cases hz : (station_seed vel endT (60 * cm) 48 start).2 = 0
    · rw [if_pos hz] at h
      exact absurd rfl h
    · rw [if_neg hz] at h
      refine stations_go_opp vel endT (60 * cm) planet 40 fuel _ _ _ []
        ?_ (fun hc => absurd rfl hc) h
      exact Or.inr (by
        rcases station_seed_sign vel endT (60 * cm) 48 start with h0 | hs
        · exact absurd h0 hz
        · exact ⟨_, hs.symm⟩)

lemma pair_go_acc (planet : String) (s : ℚ) :
    ∀ (evs : List StationEvent) (rs : Option ℚ) (acc : List RetroWindow),
      pair_go planet s evs rs acc =
        (acc ++ (pair_go planet s evs rs []).1, (pair_go planet s evs rs []).2) := by
  intro evs
  induction evs with
  | nil => intro rs acc; simp [pair_go]
  | cons ev rest ih =>
      intro rs acc
      cases hk : ev.kind with
      | retrograde => simp only [pair_go, hk]; rw [ih]
      | direct =>
          simp only [pair_go, hk, List.nil_append]
          rw [ih, ih none [⟨planet, rs.getD s, ev.time_utc⟩]]
          simp [List.append_assoc]

lemma pair_go_last_retro (planet : String) (s : ℚ) :
    ∀ (evs : List StationEvent) (rs : Option ℚ) (acc : List RetroWindow)
      (le : StationEvent), evs.getLast? = some le → le.kind = .retrograde →
      (pair_go planet s evs rs acc).2 = some le.time_utc := by
  intro evs
  induction evs with
  | nil => intro rs acc le h; cases h
  | cons ev rest ih =>
      intro rs acc le h hk
      cases rest with
      | nil =>
          have hev : ev = le := by simpa using h
          subst hev
          cases hke : ev.kind with
          | retrograde => simp [pair_go, hke]
          | direct => rw [hke] at hk; cases hk
      | cons e2 r2 =>
          have h2 : (e2 :: r2).getLast? = some le := by
            rw [← h]; exact (List.getLast?_cons_cons ..).symm
          cases hke : ev.kind with
          | retrograde =>
              rw [pair_go]
              simp only [hke]
              exact ih _ _ le h2 hk
          | direct =>
              rw [pair_go]
              simp only [hke]
              exact ih _ _ le h2 hk

/-- C4 (amended): in the station-pairing step of `compute_monthly`, a
trailing unpaired retrograde station produces a window whose end equals
`min(end_utc, month_end_utc)` — the month end, 45 days before the scan
window's end — while an unpaired direct station produces a window whose
start equals the scan window's start. -/
theorem C4_station_pairing_amended (planet : String) (speed_fn fn : ℚ → Option ℚ)
    (events : List StationEvent) (s e m : ℚ)
    (hsorted : sortStations events = events) :
    (∀ le, events.getLast? = some le → le.kind = .retrograde →
      (station_windows planet speed_fn fn events s e m).getLast? =
        some ⟨planet, le.time_utc, min e m⟩) ∧
    (∀ fe, events.head? = some fe → fe.kind = .direct →
      station_initial_retro speed_fn fn s = false →
      (station_windows planet speed_fn fn events s e m).head? =
        some ⟨planet, s, fe.time_utc⟩) := by
  constructor
  · intro le hlast hkind
    have hne : events ≠ [] := by
      intro hnil
      rw [hnil] at hlast
      cases hlast
    unfold station_windows
    rw [if_neg hne]
    dsimp only
    rw [hsorted]
    have h2 := pair_go_last_retro planet s events
      (if station_initial_retro speed_fn fn s then some s else none) [] le hlast hkind
    rw [h2]
    exact List.getLast?_concat _
  · intro fe hhead hkind hretro
    cases events with
    | nil => cases hhead
    | cons ev rest =>
        have hev : ev = fe := by simpa using hhead
        subst hev
        unfold station_windows
        rw [if_neg (by simp)]
        dsimp only
        rw [hsorted, hretro]
        simp only [Bool.false_eq_true, if_false]
        rw [pair_go]
        simp only [hkind]
        rw [pair_go_acc]
        simp only [List.nil_append]
        split <;> rfl

/-- C5 (amended): the synthetic Moon record is emitted precisely when the
scan over the whole padded window produced zero crossings (and the longitude
at the month start is finite) — not when zero crossings fall inside the
month; whenever the scan produced at least one crossing, anywhere in the
window, no synthetic record appears and the rows are exactly the in-month
crossings. -/
theorem C5_moon_synthetic_amended (reproject : ℚ → ℚ) (msS msE : ℚ)
    (lv : ℚ) (lon_at_start : Option ℚ) (changes : List SignChange) :
    (changes = [] → lon_at_start = some lv →
      moon_monthly_rows reproject msS msE lon_at_start changes =
        [⟨msS, Int.fmod (pada_index_from_lon lv).1 27, (pada_index_from_lon lv).2⟩]) ∧
    (changes ≠ [] →
      moon_monthly_rows reproject msS msE lon_at_start changes =
        changes.filterMap (moon_change_row reproject msS msE)) := by
  constructor
  · rintro rfl rfl
    simp [moon_monthly_rows]
  · intro hne
    unfold moon_monthly_rows
    rw [if_neg (by simpa [List.isEmpty_iff] using hne)]
    simp

lemma ingress_change_row_spec {reproject : ℚ → ℚ} {msS msE : ℚ} {body : String}
    {c : SignChange} {r : IngressRow}
    (h : ingress_change_row reproject msS msE body c = some r) :
    r.fromIdx = c.from_index ∧ r.toIdx = c.to_index := by
  unfold ingress_change_row at h
  dsimp only at h
  split at h
  · cases h
    exact ⟨rfl, rfl⟩
  · cases h

lemma sun_row_of_change_spec {reproject : ℚ → ℚ} {msS msE : ℚ}
    {c : SignChange} {r : SunRow}
    (h : sun_row_of_change reproject msS msE c = some r) :
    r.fromIdx = c.from_index ∧ r.toIdx = c.to_index := by
  unfold sun_row_of_change at h
  dsimp only at h
  split at h
  · cases h
    exact ⟨rfl, rfl⟩
  · cases h

/-- C6 (amended): every sign change emitted by a scan has distinct from and
to indices, hence every Sun row and every other-planet row derived from a
detected change has `from ≠ to`; but when a planet's scan finds no changes,
`compute_monthly` emits a placeholder row whose from and to signs are equal
(the planet's current sign). -/
theorem C6_ingress_from_ne_to_amended :
    (∀ (fn : ℚ → Option ℚ) (start endT coarse : ℚ) (rfuel fuel : Nat),
      ∀ e ∈ find_sign_changes fn start endT coarse rfuel fuel,
        e.from_index ≠ e.to_index) ∧
    (∀ (reproject : ℚ → ℚ) (msS msE : ℚ) (fn : ℚ → Option ℚ)
       (start endT coarse : ℚ) (rfuel fuel : Nat),
      ∀ r ∈ sun_rows_of_changes reproject msS msE
          (find_sign_changes fn start endT coarse rfuel fuel),
        r.fromIdx ≠ r.toIdx) ∧
    (∀ (reproject : ℚ → ℚ) (msS msE anchor : ℚ) (planet : String) (lon : ℚ)
       (fn : ℚ → Option ℚ) (start endT coarse : ℚ) (rfuel fuel : Nat),
      find_sign_changes fn start endT coarse rfuel fuel ≠ [] →
      ∀ r ∈ other_ingress_rows_for_planet reproject msS msE anchor planet lon
          (find_sign_changes fn start endT coarse rfuel fuel),
        r.fromIdx ≠ r.toIdx) ∧
    (∀ (reproject : ℚ → ℚ) (msS msE anchor : ℚ) (planet : String) (lon : ℚ),
      other_ingress_rows_for_planet reproject msS msE anchor planet lon [] =
        [⟨planet, sign_index lon, sign_index lon, anchor⟩]) := by
  have hscan : ∀ (fn : ℚ → Option ℚ) (start endT coarse : ℚ) (rfuel fuel : Nat),
      ∀ e ∈ find_sign_changes fn start endT coarse rfuel fuel,
        e.from_index ≠ e.to_index := by
    intro fn start endT coarse rfuel fuel
    unfold find_sign_changes
    dsimp only
    split
    · intro e he
      cases he
    · intro e he
      exact ((fsc_go_inv fn _ _ rfuel fuel _ _ none [] List.chain'_nil rfl
        (by intro e h; cases h)).2 e he).2
  refine ⟨hscan, ?_, ?_, ?_⟩
  · intro reproject msS msE fn start endT coarse rfuel fuel r hr
    obtain ⟨c, hc, hrow⟩ := List.mem_filterMap.1 hr
    obtain ⟨h1, h2⟩ := sun_row_of_change_spec hrow
    rw [h1, h2]
    exact hscan fn start endT coarse rfuel fuel c hc
  · intro reproject msS msE anchor planet lon fn start endT coarse rfuel fuel hne r hr
    unfold other_ingress_rows_for_planet at hr
    rw [if_neg hne] at hr
    obtain ⟨c, hc, hrow⟩ := List.mem_filterMap.1 hr
    obtain ⟨h1, h2⟩ := ingress_change_row_spec hrow
    rw [h1, h2]
    exact hscan fn start endT coarse rfuel fuel c hc
  · intro reproject msS msE anchor planet lon
    rfl

section ConcreteEvaluation

attribute [local semireducible] Rat.add Rat.sub Rat.mul Rat.inv Rat.ofScientific

/-- Witness for C2 at a constant ephemeris returning raw longitude 100:
Rahu reads 100, Ketu reads 280 = mod360 (100 + 180). -/
theorem C2_ketu_identity_witness :
    planet_lon_fn .Ketu ⟨fun _ _ => some (100, none)⟩ 0 = some (mod360 ((100 : ℚ) + 180)) ∧
    |(280 : ℚ) - mod360 ((100 : ℚ) + 180)| ≤ 1 / 1000000 :=
  ⟨(C2_ketu_identity ⟨fun _ _ => some (100, none)⟩ 0 100 (by decide)).1,
   (C2_ketu_identity ⟨fun _ _ => some (100, none)⟩ 0 100 (by decide)).2 280 (by decide)⟩

/-- C3 counterexample: the segment-index scan over `f3` emits the crossing at
t = 1585/16 (from segment 0 to segment 1), yet one second after that instant
`f3` classifies back to segment 0 — the claimed hysteresis check would have
skipped this candidate, but `_find_segment_changes` performs no such check. -/
theorem C3_segment_scan_no_hysteresis_cex :
    (⟨1585 / 16, 0, 1⟩ : SignChange) ∈ find_segment_changes f3 40 160 30 1 50 ∧
    ¬ hyst_ok f3 (fun d => segment_index d 30) ⟨1585 / 16, 0, 1⟩ := by
  constructor
  · decide
  · unfold hyst_ok
    decide

/-- Witness for C3 at the step function `f4`: the emitted crossing at
t = 1605/16 satisfies the hysteresis post-condition. -/
theorem C3_sign_scan_hysteresis_witness :
    hyst_ok f4 sign_index ⟨1605 / 16, 0, 1⟩ :=
  C3_sign_scan_hysteresis f4 0 300 1 64 50 ⟨1605 / 16, 0, 1⟩ (by decide)

/-- C4 counterexample: a scan window ending 45 days (3 888 000 s) after the
month end at 2 000 000, with a single trailing retrograde station at
1 000 000 and a non-retrograde initial speed.  The emitted window ends at
`min(end_utc, month_end_utc) = 2 000 000`, the month end — not at the scan
window's end 5 888 000 as the claim states. -/
theorem C4_trailing_retro_clip_cex :
    station_windows "Mars" (fun _ => some 1) (fun _ => some 0)
        [⟨"Mars", 1000000, .retrograde⟩] 0 5888000 2000000 =
      [⟨"Mars", 1000000, 2000000⟩] ∧
    (2000000 : ℚ) ≠ 5888000 := by
  constructor
  · decide
  · decide

/-- Witness for C4 at one-event lists: a lone retrograde station yields a
window ending at `min e m`; a lone direct station (initial speed positive)
yields a window starting at the scan start. -/
theorem C4_station_pairing_amended_witness :
    (station_windows "Mars" (fun _ => some 1) (fun _ => some 0)
        [⟨"Mars", 1000000, .retrograde⟩] 0 5888000 2000000).getLast? =
      some ⟨"Mars", 1000000, min 5888000 2000000⟩ ∧
    (station_windows "Venus" (fun _ => some 1) (fun _ => some 0)
        [⟨"Venus", 500, .direct⟩] 0 5888000 2000000).head? =
      some ⟨"Venus", 0, 500⟩ := by
  constructor
  · exact (C4_station_pairing_amended "Mars" (fun _ => some 1) (fun _ => some 0)
      [⟨"Mars", 1000000, .retrograde⟩] 0 5888000 2000000 (by decide)).1
      ⟨"Mars", 1000000, .retrograde⟩ rfl rfl
  · exact (C4_station_pairing_amended "Venus" (fun _ => some 1) (fun _ => some 0)
      [⟨"Venus", 500, .direct⟩] 0 5888000 2000000 (by decide)).2
      ⟨"Venus", 500, .direct⟩ rfl rfl (by decide)

/-- C5 counterexample: a single crossing whose reprojected instant 9999 lies
outside the month `[0, 100)` — so zero crossings fall inside the month — yet
the Moon rows are empty: no synthetic record is emitted, because the code
keys the synthetic record on the scan being empty, not on the month being
empty. -/
theorem C5_synthetic_on_scan_empty_cex :
    ([⟨9999, 0, 1⟩] : List SignChange).filterMap (moon_change_row id 0 100) = [] ∧
    moon_monthly_rows id 0 100 (some 5) [⟨9999, 0, 1⟩] = [] := by
  constructor
  · decide
  · decide

/-- Witness for C5: an empty scan with finite longitude 5° yields exactly the
synthetic record (nakshatra 0, pada 2) at the month start; a nonempty scan
yields exactly the in-month crossing rows. -/
theorem C5_moon_synthetic_amended_witness :
    moon_monthly_rows id 0 100 (some 5) [] =
      [⟨0, Int.fmod (pada_index_from_lon 5).1 27, (pada_index_from_lon 5).2⟩] ∧
    moon_monthly_rows id 0 100 (some 5) [⟨50, 3, 4⟩] =
      ([⟨50, 3, 4⟩] : List SignChange).filterMap (moon_change_row id 0 100) := by
  constructor
  · exact (C5_moon_synthetic_amended id 0 100 5 (some 5) []).1 rfl rfl
  · exact (C5_moon_synthetic_amended id 0 100 5 (some 5) [⟨50, 3, 4⟩]).2 (by decide)

/-- C6 counterexample: a planet scan with no changes (here with current
longitude 123°, sign index 4) emits a placeholder ingress row whose from and
to signs are equal, contradicting `from_sign ≠ to_sign` for every emitted
ingress row. -/
theorem C6_placeholder_from_eq_to_cex :
    other_ingress_rows_for_planet id 0 100 0 "Pluto" 123 [] =
      [⟨"Pluto", 4, 4, 0⟩] ∧
    (⟨"Pluto", 4, 4, 0⟩ : IngressRow).fromIdx = (⟨"Pluto", 4, 4, 0⟩ : IngressRow).toIdx := by
  constructor
  · decide
  · rfl

/-- Witness for C6 over the step function `f4`: the emitted scan event, the
Sun row and the Mercury row derived from it have `from ≠ to`, and the
placeholder equation holds at a concrete planet. -/
theorem C6_ingress_from_ne_to_amended_witness :
    (⟨1605 / 16, 0, 1⟩ : SignChange).from_index ≠
      (⟨1605 / 16, 0, 1⟩ : SignChange).to_index ∧
    (⟨0, 1, 1605 / 16⟩ : SunRow).fromIdx ≠ (⟨0, 1, 1605 / 16⟩ : SunRow).toIdx ∧
    (⟨"Mercury", 0, 1, 1605 / 16⟩ : IngressRow).fromIdx ≠
      (⟨"Mercury", 0, 1, 1605 / 16⟩ : IngressRow).toIdx ∧
    other_ingress_rows_for_planet id 0 100 0 "Pluto" 123 [] =
      [⟨"Pluto", sign_index 123, sign_index 123, 0⟩] := by
  refine ⟨?_, ?_, ?_, ?_⟩
  · exact C6_ingress_from_ne_to_amended.1 f4 0 300 1 64 50 ⟨1605 / 16, 0, 1⟩ (by decide)
  · exact C6_ingress_from_ne_to_amended.2.1 id 0 300 f4 0 300 1 64 50
      ⟨0, 1, 1605 / 16⟩ (by decide)
  · exact C6_ingress_from_ne_to_amended.2.2.1 id 0 300 0 "Mercury" 10 f4 0 300 1 64 50
      (by decide) ⟨"Mercury", 0, 1, 1605 / 16⟩ (by decide)
  · exact C6_ingress_from_ne_to_amended.2.2.2 id 0 100 0 "Pluto" 123

/-- Witness for C10: a velocity of 5e-7 °/h classifies as sign 0; a window
whose velocity is identically 0 yields no stations; a velocity crossing from
+1 to −1 °/h yields a nonempty scan and hence two opposite samples. -/
theorem C10_station_dead_zone_witness :
    safe_sign (some (1 / 2000000)) = 0 ∧
    find_stations (fun _ => some 0) 0 100 60 none "Mercury" 50 = [] ∧
    opp_samples (velocity_at (some (fun t => some (if t < 5000 then 24 else -24)))
      (fun _ => some 0)) := by
  refine ⟨?_, ?_, ?_⟩
  · exact C10_station_dead_zone.1 (some (1 / 2000000))
      (Or.inr ⟨1 / 2000000, rfl, by decide⟩)
  · exact C10_station_dead_zone.2.1 (fun _ => some 0) 0 100 60 none "Mercury" 50
      (fun t => by
        show safe_sign (some (angdiff 0 0)) = 0
        decide)
  · exact C10_station_dead_zone.2.2 (fun _ => some 0) 0 7200 60
      (some (fun t => some (if t < 5000 then 24 else -24))) "Mars" 50 (by decide)

end ConcreteEvaluation
